import Mathlib

/-!
Verification of the subtitle-translation core of the `animesubs` repository
(`src-tauri/src/lib.rs`), shallowly embedded in Lean 4.

Strings are modelled through their character lists (`String.data`), so every
Rust `str` operation used by the pipeline (`trim`, `starts_with`, `splitn`,
`split`, `contains`, `to_lowercase`, regex tag stripping, ...) is given an
explicit executable Lean counterpart with the same observable behaviour on
the inputs the pipeline feeds it.  Rust `HashMap` is modelled by an
association list whose `insert` overwrites the existing key, matching the
map's observable `get` / `insert` / `len` behaviour.
-/

namespace Animesubs

/-- Rust `char::is_whitespace` restricted to the ASCII whitespace the
subtitle pipeline actually meets (Lean's `Char.isWhitespace`). -/
def isWs (c : Char) : Bool := c.isWhitespace

/-- Rust `u8/char::to_ascii_lowercase`. -/
def asciiLower (c : Char) : Char :=
  if 'A' ≤ c && c ≤ 'Z' then Char.ofNat (c.toNat + 32) else c

/-- Rust `str::to_lowercase` / `to_ascii_lowercase` on the pipeline's
(ASCII) inputs. -/
def strToLower (s : String) : String := ⟨s.data.map asciiLower⟩

/-- Rust `str::trim`. -/
def strTrim (s : String) : String :=
  ⟨((s.data.dropWhile isWs).reverse.dropWhile isWs).reverse⟩

/-- Rust `str::starts_with` for a string pattern. -/
def strStartsWith (s p : String) : Bool := p.data.isPrefixOf s.data

/-- Rust `str::ends_with` for a string pattern. -/
def strEndsWith (s p : String) : Bool := p.data.isSuffixOf s.data

/-- Byte-slicing `s[n..]` as used on ASCII prefixes (`trimmed[6..]`,
`trimmed[7..]`): dropping `n` characters. -/
def strDropChars (s : String) (n : Nat) : String := ⟨s.data.drop n⟩

/-- Substring containment on char lists, Rust `str::contains(&str)`. -/
def listContainsSub : List Char → List Char → Bool
  | s, pat =>
    if pat.isPrefixOf s then true
    else
      match s with
      | [] => false
      | _ :: rest => listContainsSub rest pat

/-- Rust `str::contains(&str)`. -/
def strContains (s pat : String) : Bool := listContainsSub s.data pat.data

/-- Split a char list at the first occurrence of `c`; `none` when absent. -/
def splitFirst (c : Char) : List Char → Option (List Char × List Char)
  | [] => none
  | x :: xs =>
    if x = c then some ([], xs)
    else (splitFirst c xs).map (fun p => (x :: p.1, p.2))

theorem splitFirst_length {c : Char} :
    ∀ {s a b : List Char}, splitFirst c s = some (a, b) → b.length < s.length := by
  intro s
  induction s with
  | nil => intro a b h; simp [splitFirst] at h
  | cons x xs ih =>
    intro a b h
    by_cases hx : x = c
    · simp [splitFirst, hx] at h
      simp [← h.2]
    · simp only [splitFirst, hx, if_false, Option.map_eq_some'] at h
      rcases h with ⟨⟨p1, p2⟩, hp, heq⟩
      cases heq
      exact Nat.lt_trans (ih hp) (Nat.lt_succ_self _)

/-- Rust `split(char)`: split a char list on every occurrence of `c`,
keeping empty pieces (so the empty list yields one empty piece). -/
def splitChar (c : Char) : List Char → List (List Char)
  | [] => [[]]
  | x :: xs =>
    let r := splitChar c xs
    if x = c then [] :: r
    else
      match r with
      | [] => [[x]]
      | h :: t => (x :: h) :: t

/-- Rust `str::split(',')`. -/
def strSplitComma (s : String) : List String :=
  (splitChar ',' s.data).map (fun l => ⟨l⟩)

/-- Rust `str::splitn(n, ',')`: at most `n` pieces, the last piece keeping
the remaining separators. -/
def splitnCharList : Nat → Char → List Char → List (List Char)
  | 0, _, _ => []
  | 1, _, s => [s]
  | n + 2, c, s =>
    match h : splitFirst c s with
    | none => [s]
    | some (a, b) => a :: splitnCharList (n + 1) c b

/-- Rust `str::splitn(n, ',')` on strings. -/
def strSplitn (n : Nat) (c : Char) (s : String) : List String :=
  (splitnCharList n c s.data).map (fun l => ⟨l⟩)

/-- Rust `str::split_whitespace`. -/
def splitWhitespace (s : String) : List String :=
  ((s.data.splitOnP isWs).filter (fun l => l ≠ [])).map (fun l => ⟨l⟩)

/-- Rust `Vec::join(sep)` / `format!` gluing. -/
def strJoin (sep : String) : List String → String
  | [] => ""
  | [x] => x
  | x :: y :: xs => x ++ sep ++ strJoin sep (y :: xs)

/-- Strip one trailing `'\r'` (the `\r\n` handling of Rust `str::lines`). -/
def stripCRList (l : List Char) : List Char :=
  if l.getLast? = some '\r' then l.dropLast else l

/-- Helper for `rustLines`: the final piece keeps a lone `'\r'` and is
dropped when empty (a trailing newline produces no extra line). -/
def rustLinesAux : List (List Char) → List String
  | [] => []
  | [last] => if last = [] then [] else [⟨last⟩]
  | l :: rest => ⟨stripCRList l⟩ :: rustLinesAux rest

/-- Rust `str::lines`: split on `'\n'`, strip a `'\r'` left before each
newline, no empty final line for a trailing newline. -/
def rustLines (s : String) : List String :=
  rustLinesAux (splitChar '\n' s.data)

/-- Rust `str::parse::<usize>()` (overflow ignored: the pipeline only meets
small cue numbers). Accepts an optional leading `+` and ASCII digits. -/
def rustParseUsize (s : String) : Option Nat :=
  let cs := match s.data with
    | '+' :: r => r
    | r => r
  if cs ≠ [] && cs.all Char.isDigit then
    some (cs.foldl (fun a c => a * 10 + (c.toNat - 48)) 0)
  else none

/-- Rust `str::trim_end_matches('/')`. -/
def trimEndSlashes (s : String) : String :=
  ⟨(s.data.reverse.dropWhile (fun c => c = '/')).reverse⟩

/-- Rust `str::trim_matches(&['[', ']'])`. -/
def trimBrackets (s : String) : String :=
  let p : Char → Bool := fun c => c = '[' || c = ']'
  ⟨((s.data.dropWhile p).reverse.dropWhile p).reverse⟩

/-- Leftmost, non-overlapping removal of `lc … rc` blocks with no `rc`
inside, the behaviour of `Regex::replace_all` for the source patterns
`\x7b[^\x7d]*\x7d` (ASS override blocks) and `<[^>]*>` (HTML-ish tags).
The mode (`some buf`) holds the reversed chars collected since an `lc`
still looking for its `rc`; an `lc` with no later `rc` matches nothing and
is emitted verbatim with its tail. -/
def stripTagRun (lc rc : Char) : List Char → Option (List Char) → List Char
  | [], none => []
  | [], some buf => lc :: buf.reverse
  | c :: rest, none =>
    if c = lc then stripTagRun lc rc rest (some [])
    else c :: stripTagRun lc rc rest none
  | c :: rest, some buf =>
    if c = rc then stripTagRun lc rc rest none
    else stripTagRun lc rc rest (some (c :: buf))

/-- Entry point of the tag-block stripper. -/
def stripTagBlocks (lc rc : Char) (l : List Char) : List Char :=
  stripTagRun lc rc l none

/-- Leftmost, non-overlapping `str::replace` of the two-char pattern
`[p0, p1]` by `repl` (the source's `\N` / `\n` to newline rewrites). -/
def replaceAll2 (p0 p1 : Char) (repl : List Char) : List Char → List Char
  | [] => []
  | [c] => [c]
  | c :: d :: rest =>
    if c = p0 && d = p1 then repl ++ replaceAll2 p0 p1 repl rest
    else c :: replaceAll2 p0 p1 repl (d :: rest)

/-- `str::replace` of one char by `repl` (the newline to `\N` rewrite). -/
def replaceAll1 (p0 : Char) (repl : List Char) : List Char → List Char
  | [] => []
  | c :: rest =>
    if c = p0 then repl ++ replaceAll1 p0 repl rest
    else c :: replaceAll1 p0 repl rest

/-- Rust `str::split` for a three-char pattern (leftmost, non-overlapping;
keeps empty pieces). -/
def splitSeq3 (p0 p1 p2 : Char) : List Char → List (List Char)
  | [] => [[]]
  | [c] => [[c]]
  | [c, d] => [[c, d]]
  | c :: d :: e :: rest =>
    if c = p0 && d = p1 && e = p2 then [] :: splitSeq3 p0 p1 p2 rest
    else
      match splitSeq3 p0 p1 p2 (d :: e :: rest) with
      | [] => [[c]]
      | h :: t => (c :: h) :: t

/-- Rust `str::split("-->")` (the only multi-char split the source does). -/
def splitSeqStr (pat : String) (s : String) : List String :=
  match pat.data with
  | [p0, p1, p2] => (splitSeq3 p0 p1 p2 s.data).map (fun l => ⟨l⟩)
  | _ => [s]

deriving instance DecidableEq for Except

/-!  ## Data model (`lib.rs`, Translation Pipeline Data Structures)  -/

/-- `struct DialogLine` (Rust field `end` is `end_` here). -/
structure DialogLine where
  index : Nat
  text : String
  original_with_formatting : String
  start : String
  end_ : String
  style : Option String
  name : Option String
deriving DecidableEq, Repr

/-- `struct SubtitleData`. -/
structure SubtitleData where
  format : String
  lines : List DialogLine
  line_count : Nat
  source_path : String
  ass_header : Option String
deriving DecidableEq, Repr

/-- `struct TranslationLine`. -/
structure TranslationLine where
  id : Nat
  text : String
deriving DecidableEq, Repr

/-- `struct TranslatedLine`. -/
structure TranslatedLine where
  id : Nat
  text : String
deriving DecidableEq, Repr

/-- `struct LLMConfig`. -/
structure LLMConfig where
  provider : String
  api_key : String
  endpoint : String
  model : String
  system_prompt : String
deriving DecidableEq, Repr

/-!  ## Dialog filter (`strip_ass_tags`, `is_music_or_karaoke_line`)  -/

/-- `fn strip_ass_tags`: remove `\x7b…\x7d` override blocks, then replace
the literal sequences `\N` and `\n` by real newlines. -/
def strip_ass_tags (text : String) : String :=
  ⟨replaceAll2 '\\' 'n' ['\n']
    (replaceAll2 '\\' 'N' ['\n']
      (stripTagBlocks '{' '}' text.data))⟩

/-- `fn is_music_or_karaoke_line`. -/
def is_music_or_karaoke_line (original_text clean_text : String) : Bool :=
  let lowered := strToLower clean_text
  let original_lower := strToLower original_text
  let has_music_notes := clean_text.data.contains '♪' || clean_text.data.contains '♫'
    || clean_text.data.contains '♩' || clean_text.data.contains '♬'
  let has_music_words := strContains lowered "[music" || strContains lowered "(music"
    || strContains lowered "bgm" || strContains lowered "instrumental"
    || strContains lowered "ending theme" || strContains lowered "opening theme"
  let has_karaoke_tags := strContains original_lower "\\k"
  let has_alignment_tag := strContains original_lower "\\an"
  let trimmed := strTrim clean_text
  let is_very_short := trimmed.data.length ≤ 3
  let looks_like_romaji := trimmed.data.all (fun c => c.isAlpha || c.isWhitespace)
  let tokens := splitWhitespace trimmed
  let short_tokens := (tokens.filter (fun t => t.data.length ≤ 3)).length
  let mostly_short := tokens.length ≥ 2 && short_tokens * 2 ≥ tokens.length
  let repeating_tokens :=
    if tokens.length ≥ 3 then tokens.eraseDups.length * 2 ≤ tokens.length else false
  has_music_notes || has_music_words || has_karaoke_tags
    || (has_alignment_tag && is_very_short && looks_like_romaji)
    || ((is_very_short || mostly_short) && looks_like_romaji && repeating_tokens)

/-- The `skip_styles` list shared by `parse_ass_file` and `reconstruct_ass`. -/
def skip_styles : List String :=
  ["op", "ed", "opening", "ending", "karaoke", "romaji", "japanese", "sign",
   "signs", "title", "song", "lyrics", "insert", "credit", "credits"]

/-- The style-blacklist test (case-insensitive substring or whole word),
identical at both call sites in the source. -/
def should_skip_style (styleLower : String) : Bool :=
  skip_styles.any (fun sk =>
    strContains styleLower sk || (splitWhitespace styleLower).any (fun w => w = sk))

/-!  ## ASS parser (`parse_ass_file`)  -/

/-- `trimmed.splitn(10, ',')` of a `Dialogue:` line. -/
def assDialogParts (trimmed : String) : List String := strSplitn 10 ',' trimmed

/-- `parts[9..].join(",")`: the free-text payload. -/
def assOriginalText (parts : List String) : String := strJoin "," (parts.drop 9)

/-- Lowercased trimmed `Style` field (`parts[3]`). -/
def assStyleLower (parts : List String) : String :=
  strToLower (strTrim (parts.getD 3 ""))

/-- The fused parse-time dialog-filter decision for one `Dialogue:` line
(the same boolean the reconstructor re-evaluates): at least 10 fields,
non-empty cleaned text, style not blacklisted, at least 3 scalars after
trimming, and not music/karaoke. -/
def assKeep (trimmed : String) : Bool :=
  let parts := assDialogParts trimmed
  decide (10 ≤ parts.length) &&
    (let orig := assOriginalText parts
     let clean := strip_ass_tags orig
     !(strTrim clean = "") && !(should_skip_style (assStyleLower parts))
       && !(decide ((strTrim clean).data.length < 3))
       && !(is_music_or_karaoke_line orig clean))

/-- The `DialogLine` built (or not) from one trimmed `Dialogue:` line, given
the next dense index. -/
def assDialogLine (idx : Nat) (trimmed : String) : Option DialogLine :=
  if assKeep trimmed then
    let parts := assDialogParts trimmed
    let orig := assOriginalText parts
    some
      { index := idx
        text := strip_ass_tags orig
        original_with_formatting := orig
        start := strTrim (parts.getD 1 "")
        end_ := strTrim (parts.getD 2 "")
        style := some (strTrim (parts.getD 3 ""))
        name :=
          let n := strTrim (parts.getD 4 "")
          if n = "" then none else some n }
  else none

/-- The line-walking loop of `parse_ass_file`: carries the enumeration
counter, accumulated lines, the `in_events` flag and `header_end`;
stops (`break`) at the first section marker after `[Events]`. -/
def assParseLoop : Nat → List DialogLine → Bool → Nat → List String →
    List DialogLine × Nat
  | _, acc, _, hend, [] => (acc, hend)
  | n, acc, inEv, hend, l :: ls =>
    let t := strTrim l
    if strStartsWith t "[Events]" then assParseLoop (n + 1) acc true n ls
    else if inEv && strStartsWith t "[" then (acc, hend)
    else if inEv && strStartsWith t "Dialogue:" then
      assParseLoop (n + 1) (acc ++ (assDialogLine acc.length t).toList) inEv hend ls
    else assParseLoop (n + 1) acc inEv hend ls

/-- `fn parse_ass_file` (it has no `Err`-returning path). -/
def parse_ass_file (content : String) : Except String SubtitleData :=
  let ls := rustLines content
  let res := assParseLoop 0 [] false 0 ls
  .ok
    { format := "ass"
      line_count := res.1.length
      lines := res.1
      source_path := ""
      ass_header := some (strJoin "\n" (ls.take (res.2 + 2))) }

/-!  ## SRT parser (`parse_srt_file`)  -/

/-- Mutable locals of the SRT state machine. -/
structure SrtState where
  lines : List DialogLine
  curIdx : Option Nat
  curStart : String
  curEnd : String
  curText : List String
deriving Repr

/-- The entry-saving step shared by the index branch and the tail flush:
push the joined text unless empty or music/karaoke. -/
def srtFlush (st : SrtState) : SrtState :=
  let text := strJoin "\n" st.curText
  if !(strTrim text = "") && !(is_music_or_karaoke_line text text) then
    { st with
        lines := st.lines ++
          [{ index := st.lines.length, text := text,
             original_with_formatting := text, start := st.curStart,
             end_ := st.curEnd, style := none, name := none }] }
  else st

/-- One line of the SRT state machine. -/
def srtStep (st : SrtState) (line : String) : SrtState :=
  let t := strTrim line
  match rustParseUsize t with
  | some idx =>
    let st' := if st.curIdx.isSome && !st.curText.isEmpty then srtFlush st else st
    { st' with curIdx := some idx, curText := [] }
  | none =>
    if strContains t "-->" then
      let ps := splitSeqStr "-->" t
      if ps.length ≥ 2 then
        { st with curStart := strTrim (ps.getD 0 ""), curEnd := strTrim (ps.getD 1 "") }
      else st
    else if st.curIdx.isSome && !(t = "") then
      { st with curText := st.curText ++ [⟨stripTagBlocks '<' '>' t.data⟩] }
    else st

/-- `fn parse_srt_file` (no `Err`-returning path either). -/
def parse_srt_file (content : String) : Except String SubtitleData :=
  let st := (rustLines content).foldl srtStep
    { lines := [], curIdx := none, curStart := "", curEnd := "", curText := [] }
  let st := if st.curIdx.isSome && !st.curText.isEmpty then srtFlush st else st
  .ok
    { format := "srt"
      line_count := st.lines.length
      lines := st.lines
      source_path := ""
      ass_header := none }

/-!  ## WebVTT parser (`parse_vtt_file`)  -/

/-- Mutable locals of the VTT cue loop. -/
structure VttState where
  lines : List DialogLine
  curStart : String
  curEnd : String
  curText : List String
  inCue : Bool
deriving Repr

/-- Push the pending cue unless empty or music/karaoke, then clear the
text buffer (the source clears it in every such branch). -/
def vttFlush (st : VttState) : VttState :=
  let text := strJoin "\n" st.curText
  let st' :=
    if !(strTrim text = "") && !(is_music_or_karaoke_line text text) then
      { st with
          lines := st.lines ++
            [{ index := st.lines.length, text := text,
               original_with_formatting := text, start := st.curStart,
               end_ := st.curEnd, style := none, name := none }] }
    else st
  { st' with curText := [] }

/-- One line of the VTT cue loop. -/
def vttStep (st : VttState) (line : String) : VttState :=
  let t := strTrim line
  if strStartsWith t "WEBVTT" || strStartsWith t "NOTE" then st
  else if strContains t "-->" then
    let st := if st.inCue && !st.curText.isEmpty then vttFlush st else st
    let ps := splitSeqStr "-->" t
    let st :=
      if ps.length ≥ 2 then
        { st with
            curStart := strTrim (ps.getD 0 "")
            curEnd := (splitWhitespace (strTrim (ps.getD 1 ""))).getD 0 "" }
      else st
    { st with inCue := true }
  else if t = "" && st.inCue then
    let st := if !st.curText.isEmpty then vttFlush st else st
    { st with inCue := false }
  else if st.inCue && !(t = "") then
    { st with curText := st.curText ++ [⟨stripTagBlocks '<' '>' t.data⟩] }
  else st

/-- `fn parse_vtt_file`. -/
def parse_vtt_file (content : String) : Except String SubtitleData :=
  let st := (rustLines content).foldl vttStep
    { lines := [], curStart := "", curEnd := "", curText := [], inCue := false }
  let st := if !st.curText.isEmpty then vttFlush st else st
  .ok
    { format := "vtt"
      line_count := st.lines.length
      lines := st.lines
      source_path := ""
      ass_header := none }

/-- The format dispatch of `parse_subtitle_file` after the file has been
read (the I/O read is outside the model); `path` is the input path whose
lowercased extension is `ext`. -/
def parse_subtitle_content (ext path content : String) : Except String SubtitleData :=
  let r :=
    if ext = "ass" || ext = "ssa" then parse_ass_file content
    else if ext = "srt" then parse_srt_file content
    else if ext = "vtt" || ext = "webvtt" then parse_vtt_file content
    else .error ("Unsupported subtitle format: " ++ ext)
  r.map (fun d => { d with source_path := path })

/-!  ## ASS reconstructor (`reconstruct_ass`)  -/

/-- `fn apply_ass_formatting`: the anchored regex `^(\x7b[^\x7d]*\x7d)`
matched with `find_iter` only ever matches once, at the start, so only the
first leading override block is preserved. -/
def apply_ass_formatting (original translated : String) : String :=
  let leading : List Char :=
    match original.data with
    | '{' :: rest =>
      match splitFirst '}' rest with
      | some p => '{' :: p.1 ++ ['}']
      | none => []
    | _ => []
  let formatted := ⟨replaceAll1 '\n' "\\N".data translated.data⟩
  if leading.isEmpty then formatted else String.mk leading ++ formatted

/-- Section-tracking state of `reconstruct_ass`. -/
structure AssRecState where
  in_events : Bool
  in_styles : Bool
  encIdx : Option Nat
deriving DecidableEq, Repr

/-- Section-header handling: `[V4+ Styles]` resets the cached Encoding
column index; other markers only flip the two flags. -/
def assSectionUpdate (st : AssRecState) (trimmed : String) : AssRecState :=
  let sect := strToLower (trimBrackets trimmed)
  if sect = "v4+ styles" then { in_events := false, in_styles := true, encIdx := none }
  else if sect = "events" then { st with in_events := true, in_styles := false }
  else { st with in_events := false, in_styles := false }

/-- Column index of `Encoding` resolved from a `Format:` row in
`[V4+ Styles]` (fields trimmed, compared case-insensitively). -/
def styleFormatEncIdx (trimmed : String) : Option Nat :=
  ((strSplitComma (strDropChars trimmed 7)).map strTrim).findIdx?
    (fun f => strToLower f = "encoding")

/-- Rewrite of a `Style:` row: split the value part on commas, trim each
value, force the Encoding column (when in range) to `0`, re-join. -/
def styleRewrite (trimmed : String) (idx : Nat) : String :=
  let values := (strSplitComma (strDropChars trimmed 6)).map strTrim
  let values := if idx < values.length then values.set idx "0" else values
  "Style: " ++ strJoin "," values

/-- Translation lookup key of a Dialogue row. -/
def assDialogKey (trimmed : String) : String :=
  strToLower (strTrim (strip_ass_tags (assOriginalText (assDialogParts trimmed))))

/-- The translation map of `reconstruct_ass`: original-text key (tag-
stripped, trimmed, lowercased) to translated text; a `HashMap` collect, so
a later entry overwrites an earlier one with the same key. -/
def buildTransMap (ts : List DialogLine) : String → Option String :=
  ts.foldl
    (fun m t =>
      let key := strToLower (strTrim (strip_ass_tags t.original_with_formatting))
      fun k => if k = key then some t.text else m k)
    (fun _ => none)

/-- One line of `reconstruct_ass`: returns the next state and the emitted
line.  The replacement condition re-runs the same filter boolean as the
parser (`assKeep`), exactly as the two Rust call sites duplicate it. -/
def assRecStep (tm : String → Option String) (st : AssRecState) (line : String) :
    AssRecState × String :=
  let trimmed := strTrim line
  if strStartsWith trimmed "[" then (assSectionUpdate st trimmed, line)
  else if st.in_styles && strStartsWith (strToLower trimmed) "format:" then
    ({ st with encIdx := styleFormatEncIdx trimmed }, line)
  else if st.in_styles && strStartsWith (strToLower trimmed) "style:" then
    match st.encIdx with
    | some idx => (st, styleRewrite trimmed idx)
    | none => (st, line)
  else if st.in_events && strStartsWith trimmed "Dialogue:" && assKeep trimmed then
    match tm (assDialogKey trimmed) with
    | some tr =>
      let parts := assDialogParts trimmed
      (st, strJoin "," (parts.take 9) ++ "," ++
        apply_ass_formatting (assOriginalText parts) tr)
    | none => (st, line)
  else (st, line)

/-- The emitted lines of `reconstruct_ass`, threading the state. -/
def assRecLines (tm : String → Option String) : AssRecState → List String → List String
  | _, [] => []
  | st, l :: ls =>
    let p := assRecStep tm st l
    p.2 :: assRecLines tm p.1 ls

/-- The state of `reconstruct_ass` after consuming a list of lines. -/
def assRecRun (tm : String → Option String) : AssRecState → List String → AssRecState
  | st, [] => st
  | st, l :: ls => assRecRun tm (assRecStep tm st l).1 ls

/-- The initial state of `reconstruct_ass`. -/
def assRecInit : AssRecState := { in_events := false, in_styles := false, encIdx := none }

/-- `fn reconstruct_ass`. -/
def reconstruct_ass (original_content : String) (translations : List DialogLine) : String :=
  strJoin "\n" (assRecLines (buildTransMap translations) assRecInit (rustLines original_content))

/-!  ## SRT / VTT reconstructors  -/

/-- `fn reconstruct_srt`: rebuilt purely from the translated lines,
renumbered from 1. -/
def reconstruct_srt (translations : List DialogLine) : String :=
  strJoin "\n"
    ((translations.enum.map
      (fun p => [toString (p.1 + 1), p.2.start ++ " --> " ++ p.2.end_, p.2.text, ""])).flatten)

/-- `fn reconstruct_vtt`: rebuilt purely from the translated lines. -/
def reconstruct_vtt (translations : List DialogLine) : String :=
  strJoin "\n"
    (["WEBVTT", ""] ++
      (translations.map (fun l => [l.start ++ " --> " ++ l.end_, l.text, ""])).flatten)

/-!  ## LLM request construction (`call_llm_api`, up to the HTTP send)  -/

/-- The request payload shapes built by `call_llm_api` (JSON constants such
as `temperature = 0.3`, `response_format = json_object`, `stream = false`
are fixed per shape and carried by the constructor). -/
inductive ReqBody where
  | chatCompletions (model systemMsg userMsg : String)
  | geminiNative (text : String)
  | ollamaChat (model systemMsg userMsg : String)
deriving DecidableEq, Repr

/-- `is_gemini_openai_compat`. -/
def is_gemini_openai_compat (config : LLMConfig) : Bool :=
  config.provider = "gemini" && strContains config.endpoint "/openai"

/-- The `match config.provider.as_str()` building the request body.  The
source's first arm is the or-pattern `"openai" | "openrouter" | _` under the
single guard `if is_gemini_openai_compat`; a Rust match guard covers every
alternative of the arm, so the arm fires exactly when the guard holds. -/
def build_request_body (config : LLMConfig) (system_prompt user_content : String) :
    Except String ReqBody :=
  if is_gemini_openai_compat config then
    .ok (.chatCompletions config.model system_prompt user_content)
  else if config.provider = "gemini" then
    .ok (.geminiNative (system_prompt ++ "\n\nTranslate the following:\n" ++ user_content))
  else if config.provider = "ollama" || config.provider = "lmstudio" then
    .ok (.ollamaChat config.model system_prompt user_content)
  else .error ("Unsupported provider: " ++ config.provider)

/-- The endpoint-URL composition of `call_llm_api`. -/
def endpoint_url (config : LLMConfig) : String :=
  if is_gemini_openai_compat config then
    trimEndSlashes config.endpoint ++ "/chat/completions"
  else if config.provider = "gemini" then
    config.endpoint ++ ":generateContent?key=" ++ config.api_key
  else
    let base := trimEndSlashes config.endpoint
    if strEndsWith base "/chat/completions" then base
    else base ++ "/chat/completions"

/-- The auth headers added by `call_llm_api`. -/
def auth_headers (config : LLMConfig) : List (String × String) :=
  if is_gemini_openai_compat config then
    [("Authorization", "Bearer " ++ config.api_key)]
  else if config.provider = "openai" || config.provider = "openrouter" then
    ("Authorization", "Bearer " ++ config.api_key) ::
      (if config.provider = "openrouter" then [("HTTP-Referer", "https://animesubs.app")] else [])
  else []

/-- `call_llm_api` up to the HTTP send: body, URL and headers — or the
early `Err` return from the provider match. -/
def call_llm_request (config : LLMConfig) (system_prompt user_content : String) :
    Except String (ReqBody × String × List (String × String)) :=
  (build_request_body config system_prompt user_content).map
    (fun b => (b, endpoint_url config, auth_headers config))

/-!  ## Translation engine (`translate_subtitles`)

The asynchronous engine is modelled as a deterministic fold: the HTTP call
of each batch is abstracted by an oracle `results : Nat → List
TranslationLine → Except String (List TranslatedLine)` (batch ordinal and
submitted lines to outcome), and the mutex-serialized effects of a wave are
folded in spawn order.  Events are collected in a list. -/

/-- `HashMap<usize, String>` with `insert` overwriting and `len` the number
of keys: an association list with at most one entry per key. -/
abbrev TMap := List (Nat × String)

/-- `HashMap::insert`. -/
def tmInsert : TMap → Nat → String → TMap
  | [], k, v => [(k, v)]
  | (k', v') :: rest, k, v =>
    if k' = k then (k, v) :: rest else (k', v') :: tmInsert rest k v

/-- `HashMap::get`. -/
def tmGet : TMap → Nat → Option String
  | [], _ => none
  | (k', v) :: rest, k => if k' = k then some v else tmGet rest k

/-- `HashMap::len`. -/
def tmSize (m : TMap) : Nat := m.length

/-- Events sent through the Tauri channel (`translation-progress` /
`translation-error`). -/
inductive TransEvent where
  | progress (current_batch total_batches lines_translated total_lines : Nat)
  | error (msg : String)
deriving DecidableEq, Repr

/-- Shared mutable state of a run: the translation map, the completed-batch
counter, and the emitted events. -/
structure RunSt where
  tmap : TMap
  completed : Nat
  events : List TransEvent

/-- The initial run state. -/
def runInit : RunSt := { tmap := [], completed := 0, events := [] }

/-- One batch as materialized by the engine: ordinal and submitted lines. -/
abbrev Batch := Nat × List TranslationLine

/-- The `Result` value a batch task resolves to; it only depends on the
LLM outcome for that batch. -/
def task_result (results : Nat → List TranslationLine → Except String (List TranslatedLine))
    (b : Batch) : Except String Unit :=
  match results b.1 b.2 with
  | .ok _ => .ok ()
  | .error e => .error ("Translation failed at batch " ++ toString (b.1 + 1) ++ ": " ++ e)

/-- The body of one spawned batch task: merge translations and emit a
progress event on success, emit an error event on failure. -/
def run_task (results : Nat → List TranslationLine → Except String (List TranslatedLine))
    (total_batches total_lines : Nat) (st : RunSt) (b : Batch) : RunSt :=
  match results b.1 b.2 with
  | .ok translations =>
    let m := translations.foldl (fun m t => tmInsert m t.id t.text) st.tmap
    let c := st.completed + 1
    { tmap := m, completed := c,
      events := st.events ++ [.progress c total_batches (tmSize m) total_lines] }
  | .error e =>
    { st with events := st.events ++
        [.error ("Batch " ++ toString (b.1 + 1) ++ " failed: " ++ e)] }

/-- The `for result in results` scan: the first `Err` aborts. -/
def firstErr : List (Except String Unit) → Except String Unit
  | [] => .ok ()
  | .ok () :: rest => firstErr rest
  | .error e :: _ => .error e

/-- A full wave: every task runs (`join_all` awaits them all), then the
collected results are scanned in spawn order. -/
def run_wave (results : Nat → List TranslationLine → Except String (List TranslatedLine))
    (total_batches total_lines : Nat) (st : RunSt) (wave : List Batch) :
    RunSt × Except String Unit :=
  (wave.foldl (run_task results total_batches total_lines) st,
   firstErr (wave.map (task_result results)))

/-- Wave-after-wave processing; an erroring wave stops the run (its own
tasks all ran). -/
def run_waves (results : Nat → List TranslationLine → Except String (List TranslatedLine))
    (total_batches total_lines : Nat) : RunSt → List (List Batch) →
    RunSt × Except String Unit
  | st, [] => (st, .ok ())
  | st, w :: ws =>
    let p := run_wave results total_batches total_lines st w
    match p.2 with
    | .error e => (p.1, .error e)
    | .ok () => run_waves results total_batches total_lines p.1 ws

/-- Chunk accumulator: `cur` is the reversed current chunk, `k` the number
of elements it still accepts. -/
def chunksAcc (n : Nat) : List α → List α → Nat → List (List α)
  | [], cur, _ => if cur.isEmpty then [] else [cur.reverse]
  | x :: xs, cur, k =>
    match k with
    | 0 => cur.reverse :: chunksAcc n xs [x] (n - 1)
    | k + 1 => chunksAcc n xs (x :: cur) k

/-- `slice::chunks` (the source never passes `0`; Rust would panic there).
-/
def chunksOf (n : Nat) (l : List α) : List (List α) :=
  match l with
  | [] => []
  | x :: xs => if n = 0 then [x :: xs] else chunksAcc n xs [x] (n - 1)

/-- The batch partition: contiguous chunks carrying the original line
`index` as `id`, enumerated with their batch ordinal. -/
def make_batches (lines : List DialogLine) (batch_size : Nat) : List Batch :=
  (chunksOf batch_size lines).enum.map
    (fun p => (p.1, p.2.map (fun l => ({ id := l.index, text := l.text } : TranslationLine))))

/-- The commit step: replace each line's `text` by the map entry for its
`index` when present. -/
def applyMap (lines : List DialogLine) (m : TMap) : List DialogLine :=
  lines.map (fun l =>
    match tmGet m l.index with
    | some t => { l with text := t }
    | none => l)

/-- The wave fold of one run (dispatch after the empty-document check). -/
def translate_run (subtitle_data : SubtitleData)
    (results : Nat → List TranslationLine → Except String (List TranslatedLine))
    (batch_size concurrency : Nat) : RunSt × Except String Unit :=
  let batches := make_batches subtitle_data.lines batch_size
  run_waves results batches.length subtitle_data.lines.length runInit
    (chunksOf concurrency batches)

/-- `fn translate_subtitles` (pure core): events together with either the
translated document or the error.  `concurrency` is clamped to `[1, 10]`
before wave construction. -/
def translate_subtitles (subtitle_data : SubtitleData)
    (results : Nat → List TranslationLine → Except String (List TranslatedLine))
    (batch_size concurrency : Nat) : List TransEvent × Except String SubtitleData :=
  let conc := Nat.min (Nat.max concurrency 1) 10
  if subtitle_data.lines.length = 0 then ([], .error "No dialog lines to translate")
  else
    let p := translate_run subtitle_data results batch_size conc
    match p.2 with
    | .error e => (p.1.events, .error e)
    | .ok () =>
      let translated := applyMap subtitle_data.lines p.1.tmap
      (p.1.events, .ok
        { format := subtitle_data.format
          line_count := translated.length
          lines := translated
          source_path := subtitle_data.source_path
          ass_header := subtitle_data.ass_header })

/-!  ## Concrete inputs used by counterexamples and witnesses  -/

/-- An `openai` configuration as a caller would supply it. -/
def cfgOpenai : LLMConfig :=
  { provider := "openai", api_key := "K", endpoint := "https://api.openai.com/v1",
    model := "gpt-4o-mini", system_prompt := "natural" }

/-- An `openrouter` configuration. -/
def cfgOpenrouter : LLMConfig :=
  { provider := "openrouter", api_key := "K", endpoint := "https://openrouter.ai/api/v1",
    model := "m", system_prompt := "natural" }

/-- A two-cue SRT payload whose first cue is music (rejected by the
filter). -/
def c2srt : String :=
  "1\n00:00:01,000 --> 00:00:02,000\n♪ lala ♪\n\n2\n00:00:03,000 --> 00:00:04,000\nHello there\n"

/-- The parse of `c2srt`: only the second cue survives. -/
def c2doc : SubtitleData :=
  { format := "srt"
    lines := [{ index := 0, text := "Hello there", original_with_formatting := "Hello there",
                start := "00:00:03,000", end_ := "00:00:04,000", style := none, name := none }]
    line_count := 1
    source_path := ""
    ass_header := none }

/-- A one-cue SRT payload whose text has two scalars. -/
def c3srt : String := "1\n00:00:01,000 --> 00:00:02,000\nHi\n"

/-- The single (2-scalar) line the SRT parser emits for `c3srt`. -/
def c3line : DialogLine :=
  { index := 0, text := "Hi", original_with_formatting := "Hi",
    start := "00:00:01,000", end_ := "00:00:02,000", style := none, name := none }

/-- A trimmed ASS dialogue row with a 3-scalar text. -/
def c3dlg : String := "Dialogue: 0,0:00:01.00,0:00:02.00,Default,,0,0,0,,Abc"

/-- A minimal ASS payload with one kept dialogue row. -/
def assExContent : String :=
  "[Events]\nFormat: Layer, Start, End, Style, Name, MarginL, MarginR, MarginV, Effect, Text\nDialogue: 0,0:00:01.00,0:00:02.00,Default,,0,0,0,,Hello there"

/-- The parse of `assExContent`. -/
def assExDoc : SubtitleData :=
  { format := "ass"
    lines := [{ index := 0, text := "Hello there", original_with_formatting := "Hello there",
                start := "0:00:01.00", end_ := "0:00:02.00", style := some "Default", name := none }]
    line_count := 1
    source_path := ""
    ass_header := some "[Events]\nFormat: Layer, Start, End, Style, Name, MarginL, MarginR, MarginV, Effect, Text" }

/-- An ASS payload with a `Style:` row whose Fontname column carries extra
whitespace. -/
def c5src : String :=
  "[V4+ Styles]\nFormat: Name, Fontname, Encoding\nStyle: Default,  Arial  ,1"

/-- What the reconstructor emits for `c5src` with no translations. -/
def c5out : String :=
  "[V4+ Styles]\nFormat: Name, Fontname, Encoding\nStyle: Default,Arial,0"

/-- Four dialog lines with indices `0..3`. -/
def c4doc : SubtitleData :=
  { format := "srt"
    lines :=
      [{ index := 0, text := "a", original_with_formatting := "a", start := "s0", end_ := "e0",
         style := none, name := none },
       { index := 1, text := "b", original_with_formatting := "b", start := "s1", end_ := "e1",
         style := none, name := none },
       { index := 2, text := "c", original_with_formatting := "c", start := "s2", end_ := "e2",
         style := none, name := none },
       { index := 3, text := "d", original_with_formatting := "d", start := "s3", end_ := "e3",
         style := none, name := none }]
    line_count := 4
    source_path := "p"
    ass_header := none }

/-- An LLM oracle whose batch-0 response carries the out-of-batch id `3`. -/
def c4results : Nat → List TranslationLine → Except String (List TranslatedLine) :=
  fun i _ => if i = 0 then .ok [{ id := 3, text := "X" }] else .ok []

/-- An LLM oracle failing exactly on batch ordinal 1. -/
def c7results : Nat → List TranslationLine → Except String (List TranslatedLine) :=
  fun i _ => if i = 1 then .error "boom" else .ok [{ id := i, text := "t" }]

/-!  ## Helper lemmas  -/

theorem strStartsWith_cons {s : String} {c : Char} {cs : List Char} {p : String}
    (hp : p.data = c :: cs) (h : strStartsWith s p = true) :
    ∃ rest, s.data = c :: rest ∧ cs <+: rest := by
  unfold strStartsWith at h
  rw [hp] at h
  cases hs : s.data with
  | nil => rw [hs] at h; simp [List.isPrefixOf] at h
  | cons d ds =>
    rw [hs] at h
    simp [List.isPrefixOf] at h
    exact ⟨ds, by rw [h.1], h.2⟩

theorem strToLower_data (s : String) : (strToLower s).data = s.data.map asciiLower := rfl

/-- A line whose trim starts with `Dialogue:` cannot enter the section,
`Format:` or `Style:` branches. -/
theorem dialogue_not_bracket {s : String} (h : strStartsWith s "Dialogue:" = true) :
    strStartsWith s "[" = false := by
  obtain ⟨rest, hs, -⟩ := strStartsWith_cons (p := "Dialogue:") rfl h
  simp [strStartsWith, hs, List.isPrefixOf]

theorem dialogue_not_style {s : String} (h : strStartsWith s "Dialogue:" = true) :
    strStartsWith (strToLower s) "style:" = false := by
  obtain ⟨rest, hs, -⟩ := strStartsWith_cons (p := "Dialogue:") rfl h
  simp [strStartsWith, strToLower, hs, List.isPrefixOf, asciiLower]

theorem dialogue_not_format {s : String} (h : strStartsWith s "Dialogue:" = true) :
    strStartsWith (strToLower s) "format:" = false := by
  obtain ⟨rest, hs, -⟩ := strStartsWith_cons (p := "Dialogue:") rfl h
  simp [strStartsWith, strToLower, hs, List.isPrefixOf, asciiLower]

/-- A line whose lowercase trim starts with `style:` cannot be a section
marker. -/
theorem style_not_bracket {s : String} (h : strStartsWith (strToLower s) "style:" = true) :
    strStartsWith s "[" = false := by
  by_cases hb : strStartsWith s "[" = true
  · exfalso
    obtain ⟨rest, hs, -⟩ := strStartsWith_cons (p := "[") rfl hb
    have hdata : (strToLower s).data = '[' :: rest.map asciiLower := by
      simp [strToLower, hs]
      decide
    obtain ⟨rest', hlc, -⟩ := strStartsWith_cons (p := "style:") rfl h
    rw [hdata] at hlc
    exact absurd ((List.cons.injEq _ _ _ _).mp hlc).1 (by decide)
  · simpa using hb

/-- A `Dialogue:` line the shared filter rejects is emitted unchanged by
the reconstructor's per-line step, whatever the section state. -/
theorem assRecStep_snd_dialogue_noKeep (tm : String → Option String) (st : AssRecState)
    (line : String) (hdlg : strStartsWith (strTrim line) "Dialogue:" = true)
    (hkeep : assKeep (strTrim line) = false) :
    (assRecStep tm st line).2 = line := by
  unfold assRecStep
  simp only [dialogue_not_bracket hdlg, dialogue_not_style hdlg, dialogue_not_format hdlg,
    hdlg, hkeep, Bool.and_false, Bool.false_and, Bool.and_true, Bool.true_and]
  simp

/-- A line that is neither a rewritten `Style:` row nor a `Dialogue:` row
in `[Events]` is emitted unchanged by the per-line step. -/
theorem assRecStep_snd_preserve (tm : String → Option String) (st : AssRecState)
    (line : String)
    (h1 : st.in_styles = true → strStartsWith (strToLower (strTrim line)) "style:" = true →
      st.encIdx = none)
    (h2 : ¬(st.in_events = true ∧ strStartsWith (strTrim line) "Dialogue:" = true)) :
    (assRecStep tm st line).2 = line := by
  unfold assRecStep
  by_cases hA : strStartsWith (strTrim line) "[" = true
  · simp [hA]
  · simp only [hA, if_false]
    by_cases hB : (st.in_styles && strStartsWith (strToLower (strTrim line)) "format:") = true
    · simp [hB]
    · simp only [hB, if_false]
      by_cases hC : (st.in_styles && strStartsWith (strToLower (strTrim line)) "style:") = true
      · have hsty := (Bool.and_eq_true _ _).mp hC
        have := h1 hsty.1 hsty.2
        simp [hC, this]
      · simp only [hC, if_false]
        by_cases hD : (st.in_events && strStartsWith (strTrim line) "Dialogue:") = true
        · exact absurd ((Bool.and_eq_true _ _).mp hD) h2
        · simp [hD]

/-- A `Style:` row met inside `[V4+ Styles]` with a resolved Encoding
column is rewritten to `styleRewrite`. -/
theorem assRecStep_snd_style (tm : String → Option String) (st : AssRecState)
    (line : String) (idx : Nat) (hsty : st.in_styles = true)
    (hpre : strStartsWith (strToLower (strTrim line)) "style:" = true)
    (henc : st.encIdx = some idx) :
    (assRecStep tm st line).2 = styleRewrite (strTrim line) idx := by
  unfold assRecStep
  have hfmt : strStartsWith (strToLower (strTrim line)) "format:" = false := by
    by_cases hf : strStartsWith (strToLower (strTrim line)) "format:" = true
    · exfalso
      obtain ⟨r1, e1, -⟩ := strStartsWith_cons (p := "style:") rfl hpre
      obtain ⟨r2, e2, -⟩ := strStartsWith_cons (p := "format:") rfl hf
      rw [e1] at e2
      exact absurd ((List.cons.injEq _ _ _ _).mp e2).1 (by decide)
    · simpa using hf
  simp [style_not_bracket hpre, hfmt, hsty, hpre, henc]

/-- The reconstructor emits exactly one line per input line. -/
theorem assRecLines_length (tm : String → Option String) :
    ∀ (st : AssRecState) (ls : List String), (assRecLines tm st ls).length = ls.length := by
  intro st ls
  induction ls generalizing st with
  | nil => rfl
  | cons l ls ih => simp [assRecLines, ih]

/-- The `i`-th emitted line is the step applied to the state reached after
the first `i` input lines. -/
theorem assRecLines_getD (tm : String → Option String) :
    ∀ (ls : List String) (st : AssRecState) (i : Nat), i < ls.length →
      (assRecLines tm st ls).getD i "" =
        (assRecStep tm (assRecRun tm st (ls.take i)) (ls.getD i "")).2 := by
  intro ls
  induction ls with
  | nil => intro st i hi; simp at hi
  | cons l ls ih =>
    intro st i hi
    cases i with
    | zero => simp [assRecLines, assRecRun]
    | succ j =>
      have hj : j < ls.length := by simpa using hi
      simp only [assRecLines, List.getD_cons_succ, List.take_succ_cons]
      rw [ih (assRecStep tm st l).1 j hj]
      simp [assRecRun]

/-- Default used with `List.getD` on dialog-line lists. -/
def dfltLine : DialogLine :=
  { index := 0, text := "", original_with_formatting := "", start := "", end_ := "",
    style := none, name := none }

/-- Index density: position `i` holds index `i`. -/
def Indexed (ls : List DialogLine) : Prop :=
  ∀ i, i < ls.length → (ls.getD i dfltLine).index = i

theorem Indexed.nil : Indexed [] := by
  intro i hi
  simp at hi

theorem Indexed.append {ls : List DialogLine} {dl : DialogLine}
    (h : Indexed ls) (hdl : dl.index = ls.length) : Indexed (ls ++ [dl]) := by
  intro i hi
  simp at hi
  by_cases hlt : i < ls.length
  · rw [List.getD_eq_getElem?_getD, List.getElem?_append_left hlt,
      ← List.getD_eq_getElem?_getD]
    exact h i hlt
  · have hieq : i = ls.length := by omega
    subst hieq
    rw [List.getD_eq_getElem?_getD, List.getElem?_append_right (Nat.le_refl _)]
    simpa using hdl

theorem assDialogLine_some {idx : Nat} {t : String} {dl : DialogLine}
    (h : assDialogLine idx t = some dl) :
    assKeep t = true ∧ dl.index = idx ∧ dl.text = strip_ass_tags (assOriginalText (assDialogParts t)) := by
  unfold assDialogLine at h
  by_cases hk : assKeep t = true
  · rw [if_pos hk] at h
    refine ⟨hk, ?_, ?_⟩ <;> · cases h; rfl
  · rw [if_neg hk] at h; cases h

/-- From a positive filter decision, the cleaned text has at least 3
scalars after trimming. -/
theorem assKeep_length {t : String} (h : assKeep t = true) :
    3 ≤ (strTrim (strip_ass_tags (assOriginalText (assDialogParts t)))).data.length := by
  unfold assKeep at h
  simp only [Bool.and_eq_true, Bool.not_eq_true', decide_eq_true_eq, decide_eq_false_iff_not] at h
  omega

/-- Accumulator-invariant preservation through the ASS parse loop. -/
theorem assParseLoop_acc (P : List DialogLine → Prop)
    (hP : ∀ (acc : List DialogLine) (t : String) (dl : DialogLine),
      assDialogLine acc.length t = some dl → P acc → P (acc ++ [dl])) :
    ∀ (ls : List String) (n : Nat) (acc : List DialogLine) (inEv : Bool) (hend : Nat),
      P acc → P (assParseLoop n acc inEv hend ls).1 := by
  intro ls
  induction ls with
  | nil => intro n acc inEv hend hacc; exact hacc
  | cons l ls ih =>
    intro n acc inEv hend hacc
    unfold assParseLoop
    by_cases h1 : strStartsWith (strTrim l) "[Events]" = true
    · rw [if_pos h1]
      exact ih _ _ _ _ hacc
    · rw [if_neg h1]
      by_cases h2 : (inEv && strStartsWith (strTrim l) "[") = true
      · rw [if_pos h2]
        exact hacc
      · rw [if_neg h2]
        by_cases h3 : (inEv && strStartsWith (strTrim l) "Dialogue:") = true
        · rw [if_pos h3]
          cases hdl : assDialogLine acc.length (strTrim l) with
          | none =>
            simp only [Option.toList_none, List.append_nil]
            exact ih _ _ _ _ hacc
          | some dl =>
            simp only [Option.toList_some]
            exact ih _ _ _ _ (hP acc (strTrim l) dl hdl hacc)
        · rw [if_neg h3]
          exact ih _ _ _ _ hacc

/-- Preservation of a predicate through a left fold. -/
theorem foldl_pres {β α : Type} (P : β → Prop) (f : β → α → β)
    (hf : ∀ b a, P b → P (f b a)) : ∀ (l : List α) (b : β), P b → P (l.foldl f b) := by
  intro l
  induction l with
  | nil => intro b hb; exact hb
  | cons a l ih => intro b hb; exact ih _ (hf b a hb)

theorem srtFlush_indexed {st : SrtState} (h : Indexed st.lines) : Indexed (srtFlush st).lines := by
  unfold srtFlush
  by_cases hc : (!(strTrim (strJoin "\n" st.curText) = "") &&
      !(is_music_or_karaoke_line (strJoin "\n" st.curText) (strJoin "\n" st.curText))) = true
  · simp only [hc, if_true]
    exact h.append rfl
  · simp only [hc, if_false]
    exact h

/-- Every branch of `srtStep` leaves `lines` alone or flushes once. -/
theorem srtStep_lines (st : SrtState) (line : String) :
    (srtStep st line).lines = st.lines ∨ (srtStep st line).lines = (srtFlush st).lines := by
  unfold srtStep
  dsimp only
  cases hp : rustParseUsize (strTrim line) with
  | some idx =>
    by_cases hc : (st.curIdx.isSome && !st.curText.isEmpty) = true
    · rw [if_pos hc]; right; rfl
    · rw [if_neg hc]; left; rfl
  | none =>
    by_cases h1 : strContains (strTrim line) "-->" = true
    · rw [if_pos h1]
      by_cases h2 : (splitSeqStr "-->" (strTrim line)).length ≥ 2
      · rw [if_pos h2]; left; rfl
      · rw [if_neg h2]; left; rfl
    · rw [if_neg h1]
      by_cases h2 : (st.curIdx.isSome && !decide (strTrim line = "")) = true
      · rw [if_pos h2]; left; rfl
      · rw [if_neg h2]; left; rfl

theorem srtStep_indexed (st : SrtState) (line : String) (h : Indexed st.lines) :
    Indexed (srtStep st line).lines := by
  rcases srtStep_lines st line with he | he <;> rw [he]
  · exact h
  · exact srtFlush_indexed h

theorem vttFlush_indexed {st : VttState} (h : Indexed st.lines) : Indexed (vttFlush st).lines := by
  unfold vttFlush
  by_cases hc : (!(strTrim (strJoin "\n" st.curText) = "") &&
      !(is_music_or_karaoke_line (strJoin "\n" st.curText) (strJoin "\n" st.curText))) = true
  · simp only [hc, if_true]
    exact h.append rfl
  · simp only [hc, if_false]
    exact h

/-- Every branch of `vttStep` leaves `lines` alone or flushes once. -/
theorem vttStep_lines (st : VttState) (line : String) :
    (vttStep st line).lines = st.lines ∨ (vttStep st line).lines = (vttFlush st).lines := by
  unfold vttStep
  dsimp only
  by_cases h0 : (strStartsWith (strTrim line) "WEBVTT" || strStartsWith (strTrim line) "NOTE") = true
  · rw [if_pos h0]; left; rfl
  · rw [if_neg h0]
    by_cases h1 : strContains (strTrim line) "-->" = true
    · rw [if_pos h1]
      by_cases hc : (st.inCue && !st.curText.isEmpty) = true
      · rw [if_pos hc]
        by_cases h2 : (splitSeqStr "-->" (strTrim line)).length ≥ 2
        · rw [if_pos h2]; right; rfl
        · rw [if_neg h2]; right; rfl
      · rw [if_neg hc]
        by_cases h2 : (splitSeqStr "-->" (strTrim line)).length ≥ 2
        · rw [if_pos h2]; left; rfl
        · rw [if_neg h2]; left; rfl
    · rw [if_neg h1]
      by_cases h2 : (decide (strTrim line = "") && st.inCue) = true
      · rw [if_pos h2]
        by_cases hc : (!st.curText.isEmpty) = true
        · rw [if_pos hc]; right; rfl
        · rw [if_neg hc]; left; rfl
      · rw [if_neg h2]
        by_cases h3 : (st.inCue && !decide (strTrim line = "")) = true
        · rw [if_pos h3]; left; rfl
        · rw [if_neg h3]; left; rfl

theorem vttStep_indexed (st : VttState) (line : String) (h : Indexed st.lines) :
    Indexed (vttStep st line).lines := by
  rcases vttStep_lines st line with he | he <;> rw [he]
  · exact h
  · exact vttFlush_indexed h

/-!  ## Map, commit and wave lemmas  -/

theorem tmGet_insert (m : TMap) (k : Nat) (v : String) (k' : Nat) :
    tmGet (tmInsert m k v) k' = if k' = k then some v else tmGet m k' := by
  induction m with
  | nil =>
    simp only [tmInsert, tmGet]
    split_ifs <;> first | rfl | omega
  | cons p rest ih =>
    obtain ⟨pk, pv⟩ := p
    simp only [tmInsert]
    by_cases h1 : pk = k
    · rw [if_pos h1]
      subst h1
      simp only [tmGet]
      split_ifs <;> first | rfl | omega
    · rw [if_neg h1]
      simp only [tmGet, ih]
      split_ifs <;> first | rfl | omega

/-- Looking up the fold of inserts: the **last** matching response entry
wins; keys never returned keep the previous map value. -/
theorem tmGet_foldl_insert (ts : List TranslatedLine) :
    ∀ (m : TMap) (k : Nat),
      tmGet (ts.foldl (fun m t => tmInsert m t.id t.text) m) k =
        (match ts.reverse.find? (fun t => t.id = k) with
          | some t => some t.text
          | none => tmGet m k) := by
  induction ts with
  | nil => intro m k; simp
  | cons t ts ih =>
    intro m k
    simp only [List.foldl_cons, ih, List.reverse_cons, List.find?_append]
    cases hf : ts.reverse.find? (fun u => decide (u.id = k)) with
    | some u => simp
    | none =>
      simp only [Option.none_or]
      by_cases hk : t.id = k
      · simp [List.find?, hk, tmGet_insert]
      · have hne : ¬(k = t.id) := fun hh => hk hh.symm
        simp [List.find?, hk, tmGet_insert, hne]

theorem applyMap_length (lines : List DialogLine) (m : TMap) :
    (applyMap lines m).length = lines.length := by
  simp [applyMap]

theorem applyMap_getD (lines : List DialogLine) (m : TMap) (i : Nat)
    (hi : i < lines.length) :
    (applyMap lines m).getD i dfltLine =
      (match tmGet m ((lines.getD i dfltLine).index) with
        | some t => { lines.getD i dfltLine with text := t }
        | none => lines.getD i dfltLine) := by
  unfold applyMap
  rw [List.getD_eq_getElem?_getD, List.getElem?_map,
    List.getElem?_eq_getElem hi]
  simp [List.getD_eq_getElem?_getD, List.getElem?_eq_getElem hi]

/-- A single committed line: all fields but `text` survive; `text` is the
map entry when present, the original otherwise. -/
theorem commit_line_fields (l : DialogLine) (m : TMap) :
    ((match tmGet m l.index with
      | some t => { l with text := t }
      | none => l) : DialogLine).index = l.index ∧
    (match tmGet m l.index with
      | some t => { l with text := t }
      | none => l).start = l.start ∧
    (match tmGet m l.index with
      | some t => { l with text := t }
      | none => l).end_ = l.end_ ∧
    (match tmGet m l.index with
      | some t => { l with text := t }
      | none => l).style = l.style ∧
    (match tmGet m l.index with
      | some t => { l with text := t }
      | none => l).name = l.name ∧
    (match tmGet m l.index with
      | some t => { l with text := t }
      | none => l).original_with_formatting = l.original_with_formatting ∧
    (match tmGet m l.index with
      | some t => { l with text := t }
      | none => l).text = (tmGet m l.index).getD l.text := by
  cases tmGet m l.index <;> simp

theorem task_result_ok {results : Nat → List TranslationLine → Except String (List TranslatedLine)}
    {b : Batch} {v : List TranslatedLine} (h : results b.1 b.2 = .ok v) :
    task_result results b = .ok () := by
  unfold task_result
  rw [h]

theorem task_result_error {results : Nat → List TranslationLine → Except String (List TranslatedLine)}
    {b : Batch} {e : String} (h : results b.1 b.2 = .error e) :
    task_result results b =
      .error ("Translation failed at batch " ++ toString (b.1 + 1) ++ ": " ++ e) := by
  unfold task_result
  rw [h]

theorem firstErr_all_ok : ∀ (l : List (Except String Unit)),
    (∀ x ∈ l, x = .ok ()) → firstErr l = .ok () := by
  intro l
  induction l with
  | nil => intro _; rfl
  | cons x xs ih =>
    intro h
    have hx := h x (List.mem_cons_self x xs)
    subst hx
    exact ih (fun y hy => h y (List.mem_cons_of_mem _ hy))

theorem firstErr_has_error : ∀ (l : List (Except String Unit)),
    (∃ x ∈ l, ∃ e, x = Except.error e) → ∃ e, firstErr l = .error e := by
  intro l
  induction l with
  | nil => rintro ⟨x, hx, -⟩; simp at hx
  | cons x xs ih =>
    rintro ⟨y, hy, e, he⟩
    cases x with
    | error e' => exact ⟨e', rfl⟩
    | ok u =>
      cases u
      rcases List.mem_cons.mp hy with rfl | hmem
      · cases he
      · exact ih ⟨y, hmem, e, he⟩

theorem run_task_events_error
    {results : Nat → List TranslationLine → Except String (List TranslatedLine)}
    (total_batches total_lines : Nat) (st : RunSt) {b : Batch} {msg : String}
    (h : results b.1 b.2 = .error msg) :
    (run_task results total_batches total_lines st b).events =
      st.events ++ [.error ("Batch " ++ toString (b.1 + 1) ++ " failed: " ++ msg)] := by
  unfold run_task
  rw [h]

theorem run_task_events_mono
    (results : Nat → List TranslationLine → Except String (List TranslatedLine))
    (total_batches total_lines : Nat) (st : RunSt) (b : Batch) {ev : TransEvent}
    (h : ev ∈ st.events) :
    ev ∈ (run_task results total_batches total_lines st b).events := by
  unfold run_task
  cases results b.1 b.2 <;> · simp only []; exact List.mem_append_left _ h

theorem foldl_run_task_events_mono
    (results : Nat → List TranslationLine → Except String (List TranslatedLine))
    (total_batches total_lines : Nat) :
    ∀ (wave : List Batch) (st : RunSt) (ev : TransEvent), ev ∈ st.events →
      ev ∈ (wave.foldl (run_task results total_batches total_lines) st).events := by
  intro wave
  induction wave with
  | nil => intro st ev h; exact h
  | cons b bs ih =>
    intro st ev h
    exact ih _ ev (run_task_events_mono results total_batches total_lines st b h)

/-- Every failing batch of a wave leaves its `Batch N failed` notification
in the wave's event log (the wave is fully drained before the abort). -/
theorem run_wave_error_event
    (results : Nat → List TranslationLine → Except String (List TranslatedLine))
    (total_batches total_lines : Nat) :
    ∀ (wave : List Batch) (st : RunSt) (b : Batch) (msg : String),
      b ∈ wave → results b.1 b.2 = .error msg →
      TransEvent.error ("Batch " ++ toString (b.1 + 1) ++ " failed: " ++ msg) ∈
        (run_wave results total_batches total_lines st wave).1.events := by
  intro wave
  induction wave with
  | nil => intro st b msg hb; simp at hb
  | cons c cs ih =>
    intro st b msg hb herr
    rcases List.mem_cons.mp hb with rfl | hmem
    · show _ ∈ (cs.foldl (run_task results total_batches total_lines)
        (run_task results total_batches total_lines st b)).events
      apply foldl_run_task_events_mono
      rw [run_task_events_error total_batches total_lines st herr]
      exact List.mem_append_right _ (List.mem_singleton.mpr rfl)
    · exact ih _ b msg hmem herr

theorem run_waves_cons
    (results : Nat → List TranslationLine → Except String (List TranslatedLine))
    (total_batches total_lines : Nat) (st : RunSt) (w : List Batch) (ws : List (List Batch)) :
    run_waves results total_batches total_lines st (w :: ws) =
      (match (run_wave results total_batches total_lines st w).2 with
        | Except.error e => ((run_wave results total_batches total_lines st w).1, Except.error e)
        | Except.ok _ => run_waves results total_batches total_lines
            (run_wave results total_batches total_lines st w).1 ws) := by
  simp only [run_waves]
  cases hp : (run_wave results total_batches total_lines st w).2 <;> rfl

theorem run_wave_snd
    (results : Nat → List TranslationLine → Except String (List TranslatedLine))
    (total_batches total_lines : Nat) (st : RunSt) (w : List Batch) :
    (run_wave results total_batches total_lines st w).2 =
      firstErr (w.map (task_result results)) := rfl

theorem run_wave_fst
    (results : Nat → List TranslationLine → Except String (List TranslatedLine))
    (total_batches total_lines : Nat) (st : RunSt) (w : List Batch) :
    (run_wave results total_batches total_lines st w).1 =
      w.foldl (run_task results total_batches total_lines) st := rfl

/-- A fully successful prefix of waves is consumed without aborting. -/
theorem run_waves_append_ok
    (results : Nat → List TranslationLine → Except String (List TranslatedLine))
    (total_batches total_lines : Nat) :
    ∀ (pre rest : List (List Batch)) (st : RunSt),
      (∀ wv ∈ pre, ∀ b ∈ wv, ∃ v, results b.1 b.2 = Except.ok v) →
      run_waves results total_batches total_lines st (pre ++ rest) =
        run_waves results total_batches total_lines
          (pre.foldl (fun s wv => wv.foldl (run_task results total_batches total_lines) s) st)
          rest := by
  intro pre
  induction pre with
  | nil => intro rest st _; rfl
  | cons w ws ih =>
    intro rest st hok
    have hwv : (run_wave results total_batches total_lines st w).2 = .ok () := by
      rw [run_wave_snd]
      apply firstErr_all_ok
      intro x hx
      rcases List.mem_map.mp hx with ⟨b, hb, rfl⟩
      obtain ⟨v, hv⟩ := hok w (List.mem_cons_self w ws) b hb
      exact task_result_ok hv
    rw [List.cons_append, run_waves_cons, hwv]
    rw [run_wave_fst]
    exact ih rest _ (fun wv hwv b hb => hok wv (List.mem_cons_of_mem _ hwv) b hb)

/-- A wave with a failing batch aborts the run right after draining. -/
theorem run_waves_error
    (results : Nat → List TranslationLine → Except String (List TranslatedLine))
    (total_batches total_lines : Nat) (st : RunSt) (w : List Batch) (ws : List (List Batch))
    (h : ∃ b ∈ w, ∃ e, results b.1 b.2 = .error e) :
    ∃ e, run_waves results total_batches total_lines st (w :: ws) =
      (w.foldl (run_task results total_batches total_lines) st, .error e) := by
  have herr : ∃ e, firstErr (w.map (task_result results)) = .error e := by
    apply firstErr_has_error
    obtain ⟨b, hb, e, he⟩ := h
    exact ⟨task_result results b, List.mem_map.mpr ⟨b, hb, rfl⟩,
      _, task_result_error he⟩
  obtain ⟨e, he⟩ := herr
  refine ⟨e, ?_⟩
  rw [run_waves_cons, run_wave_snd, he, run_wave_fst]

/-- The ASS parse loop never emits a line while `[Events]` has not been
seen. -/
theorem assParseLoop_no_events :
    ∀ (ls : List String) (n : Nat) (acc : List DialogLine) (hend : Nat),
      (∀ l ∈ ls, strStartsWith (strTrim l) "[Events]" = false) →
      assParseLoop n acc false hend ls = (acc, hend) := by
  intro ls
  induction ls with
  | nil => intro n acc hend _; rfl
  | cons l ls ih =>
    intro n acc hend h
    unfold assParseLoop
    rw [if_neg (by simp [h l (List.mem_cons_self l ls)])]
    rw [if_neg (by simp)]
    rw [if_neg (by simp)]
    exact ih _ _ _ (fun x hx => h x (List.mem_cons_of_mem _ hx))

/-- A Dialogue row with fewer than 10 comma-fields never passes the
filter. -/
theorem assKeep_false_of_short {t : String}
    (hlen : (assDialogParts t).length < 10) : assKeep t = false := by
  unfold assKeep
  have hn : ¬(10 ≤ (assDialogParts t).length) := by omega
  simp [hn]

/-!  ## Claims  -/

/-- C1: for provider `openai` or `openrouter` the claim expects a
chat-completions request; the source's match-guard covers the whole
or-pattern, so `call_llm_api` instead returns `Err("Unsupported provider")`
before any request is built — the code evaluated at the failing inputs. -/
theorem C1_provider_match_bug :
    call_llm_request cfgOpenai "sys" "user" = .error "Unsupported provider: openai" ∧
    call_llm_request cfgOpenrouter "sys" "user" = .error "Unsupported provider: openrouter" := by
  exact ⟨rfl, rfl⟩

/-- C9 counterexample: an ASS payload with no `[Events]` section parses to
`Ok` (zero dialog lines, first two lines as header), not to an input
error. -/
theorem C9_counterexample :
    parse_subtitle_content "ass" "x.ass" "hello world" =
      .ok { format := "ass", lines := [], line_count := 0, source_path := "x.ass",
            ass_header := some "hello world" } := by
  rfl

/-- C9 (amended): parsing an ASS input whose header structure never
presents a `[Events]` marker **succeeds** with an empty dialog-line list;
the failure only surfaces at the engine boundary, where
`translate_subtitles` rejects the empty document before dispatching any
batch (no events, no network). -/
theorem C9_no_events_parses_empty (content : String)
    (h : ∀ l ∈ rustLines content, strStartsWith (strTrim l) "[Events]" = false) :
    ∃ d, parse_ass_file content = .ok d ∧ d.lines = [] ∧ d.line_count = 0 ∧
      ∀ (results : Nat → List TranslationLine → Except String (List TranslatedLine))
        (batch_size concurrency : Nat),
        translate_subtitles d results batch_size concurrency =
          ([], .error "No dialog lines to translate") := by
  have hloop := assParseLoop_no_events (rustLines content) 0 [] 0 h
  refine ⟨⟨"ass", [], 0, "", some (strJoin "\n" ((rustLines content).take 2))⟩, ?_, rfl, rfl, ?_⟩
  · unfold parse_ass_file
    dsimp only
    rw [hloop]
    rfl
  · intro results batch_size concurrency
    rfl

/-- C9 witness: the amended statement evaluated on a concrete header-less
payload. -/
theorem C9_no_events_witness :
    (∀ l ∈ rustLines "hello world", strStartsWith (strTrim l) "[Events]" = false) ∧
    ∃ d, parse_ass_file "hello world" = .ok d ∧ d.lines = [] ∧ d.line_count = 0 ∧
      ∀ (results : Nat → List TranslationLine → Except String (List TranslatedLine))
        (batch_size concurrency : Nat),
        translate_subtitles d results batch_size concurrency =
          ([], .error "No dialog lines to translate") :=
  ⟨by decide, C9_no_events_parses_empty "hello world" (by decide)⟩

/-- C3 counterexample: the SRT parser keeps a 2-scalar line — the
length-below-3 rejection is absent outside the ASS parser. -/
theorem C3_counterexample :
    parse_srt_file c3srt =
      .ok { format := "srt", lines := [c3line], line_count := 1, source_path := "",
            ass_header := none } ∧
    (strTrim c3line.text).data.length < 3 := by
  exact ⟨by decide, by decide⟩

/-- C3 (amended): the fewer-than-3-scalars rejection is enforced by the ASS
parser only: every DialogLine it emits has at least 3 scalars after
trimming, and an ASS dialogue row with exactly 3 cleaned scalars passes the
filter when the style and music checks also pass; SRT and VTT parsers do
not apply the threshold. -/
theorem C3_ass_length_threshold :
    (∀ (content : String) (d : SubtitleData), parse_ass_file content = .ok d →
      ∀ l ∈ d.lines, 3 ≤ (strTrim l.text).data.length) ∧
    (∀ t : String, 10 ≤ (assDialogParts t).length →
      (strTrim (strip_ass_tags (assOriginalText (assDialogParts t)))).data.length = 3 →
      should_skip_style (assStyleLower (assDialogParts t)) = false →
      is_music_or_karaoke_line (assOriginalText (assDialogParts t))
        (strip_ass_tags (assOriginalText (assDialogParts t))) = false →
      assKeep t = true) := by
  constructor
  · intro content d h l hl
    have hd : d.lines = (assParseLoop 0 [] false 0 (rustLines content)).1 := by
      unfold parse_ass_file at h
      cases h
      rfl
    rw [hd] at hl
    revert l hl
    exact assParseLoop_acc (fun acc => ∀ l ∈ acc, 3 ≤ (strTrim l.text).data.length)
      (by
        intro acc t dl hdl hacc l hl
        rcases List.mem_append.mp hl with hmem | hmem
        · exact hacc l hmem
        · obtain ⟨hk, -, htext⟩ := assDialogLine_some hdl
          have := assKeep_length hk
          rw [List.mem_singleton.mp hmem, htext]
          exact this)
      (rustLines content) 0 [] false 0 (by intro l hl; simp at hl)
  · intro t h10 h3 hskip hmusic
    unfold assKeep
    have hne : ¬(strTrim (strip_ass_tags (assOriginalText (assDialogParts t))) = "") := by
      intro hh
      rw [hh] at h3
      simp at h3
    have hlt : ¬((strTrim (strip_ass_tags (assOriginalText (assDialogParts t)))).data.length < 3) := by
      omega
    simp [h10, hne, hskip, hmusic, hlt]
    exact Nat.not_lt.mp hlt

/-- C3 witness: the amended statement at a concrete parse and a concrete
3-scalar dialogue row. -/
theorem C3_witness :
    (∀ l ∈ assExDoc.lines, 3 ≤ (strTrim l.text).data.length) ∧ assKeep c3dlg = true :=
  ⟨C3_ass_length_threshold.1 assExContent assExDoc (by decide),
   C3_ass_length_threshold.2 c3dlg (by decide) (by decide) (by decide) (by decide)⟩

/-- C8: every document emitted by any of the three parsers has
`line_count` equal to the length of its line list and `index` values that
are exactly `0, 1, …, line_count - 1` in list order. -/
theorem C8_parser_indices_dense (content : String) :
    (∀ d, parse_ass_file content = .ok d → d.line_count = d.lines.length ∧ Indexed d.lines) ∧
    (∀ d, parse_srt_file content = .ok d → d.line_count = d.lines.length ∧ Indexed d.lines) ∧
    (∀ d, parse_vtt_file content = .ok d → d.line_count = d.lines.length ∧ Indexed d.lines) := by
  refine ⟨?_, ?_, ?_⟩
  · intro d h
    unfold parse_ass_file at h
    cases h
    refine ⟨rfl, ?_⟩
    exact assParseLoop_acc Indexed
      (fun acc t dl hdl hacc => hacc.append ((assDialogLine_some hdl).2.1))
      (rustLines content) 0 [] false 0 Indexed.nil
  · intro d h
    unfold parse_srt_file at h
    cases h
    refine ⟨rfl, ?_⟩
    have h1 : Indexed ((rustLines content).foldl srtStep
        { lines := [], curIdx := none, curStart := "", curEnd := "", curText := [] }).lines :=
      foldl_pres (fun st => Indexed st.lines) srtStep srtStep_indexed (rustLines content) _
        Indexed.nil
    dsimp only
    split
    · exact srtFlush_indexed h1
    · exact h1
  · intro d h
    unfold parse_vtt_file at h
    cases h
    refine ⟨rfl, ?_⟩
    have h1 : Indexed ((rustLines content).foldl vttStep
        { lines := [], curStart := "", curEnd := "", curText := [], inCue := false }).lines :=
      foldl_pres (fun st => Indexed st.lines) vttStep vttStep_indexed (rustLines content) _
        Indexed.nil
    dsimp only
    split
    · exact vttFlush_indexed h1
    · exact h1

/-- C8 witness: the invariant evaluated on a concrete document of each
format. -/
theorem C8_witness :
    (assExDoc.line_count = assExDoc.lines.length ∧ Indexed assExDoc.lines) ∧
    (c2doc.line_count = c2doc.lines.length ∧ Indexed c2doc.lines) :=
  ⟨(C8_parser_indices_dense assExContent).1 assExDoc (by rfl),
   (C8_parser_indices_dense c2srt).2.1 c2doc (by rfl)⟩

/-- C10: a `Dialogue:` row inside `[Events]` splitting into fewer than 10
comma-fields is handled silently: the ASS parser still succeeds (it has no
error path), the shared filter boolean is false so no DialogLine is built
from the row, and the ASS reconstructor emits the row unchanged. -/
theorem C10_short_dialogue_row :
    (∀ content : String, (parse_ass_file content).isOk = true) ∧
    (∀ t : String, (assDialogParts t).length < 10 →
      assKeep t = false ∧ ∀ idx, assDialogLine idx t = none) ∧
    (∀ (tm : String → Option String) (st : AssRecState) (ls : List String) (i : Nat),
      i < ls.length →
      strStartsWith (strTrim (ls.getD i "")) "Dialogue:" = true →
      (assDialogParts (strTrim (ls.getD i ""))).length < 10 →
      (assRecLines tm st ls).getD i "" = ls.getD i "") := by
  refine ⟨?_, ?_, ?_⟩
  · intro content
    rfl
  · intro t hlen
    refine ⟨assKeep_false_of_short hlen, fun idx => ?_⟩
    unfold assDialogLine
    rw [assKeep_false_of_short hlen]
    rfl
  · intro tm st ls i hi hdlg hlen
    rw [assRecLines_getD tm ls st i hi]
    exact assRecStep_snd_dialogue_noKeep tm _ _ hdlg (assKeep_false_of_short hlen)

/-- C10 witness: the three parts at a concrete malformed Dialogue row. -/
theorem C10_witness :
    (parse_ass_file "[Events]\nDialogue: 0,bad").isOk = true ∧
    (assKeep "Dialogue: 0,bad" = false ∧ ∀ idx, assDialogLine idx "Dialogue: 0,bad" = none) ∧
    (assRecLines (buildTransMap []) assRecInit ["[Events]", "Dialogue: 0,bad"]).getD 1 "" =
      "Dialogue: 0,bad" :=
  ⟨C10_short_dialogue_row.1 "[Events]\nDialogue: 0,bad",
   C10_short_dialogue_row.2.1 "Dialogue: 0,bad" (by decide),
   C10_short_dialogue_row.2.2 (buildTransMap []) assRecInit ["[Events]", "Dialogue: 0,bad"] 1
     (by decide) (by decide) (by decide)⟩

/-- C2 counterexample: an SRT cue rejected by the filter (music notes) is
**absent** from the reconstruction — its bytes do not pass through. -/
theorem C2_counterexample :
    parse_srt_file c2srt = .ok c2doc ∧
    is_music_or_karaoke_line "♪ lala ♪" "♪ lala ♪" = true ∧
    strContains (reconstruct_srt c2doc.lines) "♪ lala ♪" = false :=
  ⟨by rfl, by rfl, by rfl⟩

/-- C2 (amended): the pass-through of rejected lines holds for ASS only —
an input line whose trim starts with `Dialogue:` and which the shared
filter (`assKeep`) rejects is emitted byte-identically at its position by
`reconstruct_ass`'s line walk; SRT and VTT outputs are rebuilt from the
retained lines only, so rejected cues are absent from them. -/
theorem C2_ass_rejected_verbatim (translations : List DialogLine) (content : String)
    (i : Nat) (hi : i < (rustLines content).length)
    (hdlg : strStartsWith (strTrim ((rustLines content).getD i "")) "Dialogue:" = true)
    (hrej : assKeep (strTrim ((rustLines content).getD i "")) = false) :
    reconstruct_ass content translations =
      strJoin "\n" (assRecLines (buildTransMap translations) assRecInit (rustLines content)) ∧
    (assRecLines (buildTransMap translations) assRecInit (rustLines content)).getD i "" =
      (rustLines content).getD i "" := by
  refine ⟨rfl, ?_⟩
  rw [assRecLines_getD _ _ _ i hi]
  exact assRecStep_snd_dialogue_noKeep _ _ _ hdlg hrej

/-- C2 witness: a karaoke-styled Dialogue row passes through
byte-identically. -/
theorem C2_witness :
    reconstruct_ass
        "[Events]\nFormat: Layer, Start, End, Style, Name, MarginL, MarginR, MarginV, Effect, Text\nDialogue: 0,0:00:05.00,0:00:07.00,OP Romaji,,0,0,0,,ki mi to"
        [] =
      strJoin "\n" (assRecLines (buildTransMap []) assRecInit (rustLines
        "[Events]\nFormat: Layer, Start, End, Style, Name, MarginL, MarginR, MarginV, Effect, Text\nDialogue: 0,0:00:05.00,0:00:07.00,OP Romaji,,0,0,0,,ki mi to")) ∧
    (assRecLines (buildTransMap []) assRecInit (rustLines
        "[Events]\nFormat: Layer, Start, End, Style, Name, MarginL, MarginR, MarginV, Effect, Text\nDialogue: 0,0:00:05.00,0:00:07.00,OP Romaji,,0,0,0,,ki mi to")).getD 2 "" =
      (rustLines
        "[Events]\nFormat: Layer, Start, End, Style, Name, MarginL, MarginR, MarginV, Effect, Text\nDialogue: 0,0:00:05.00,0:00:07.00,OP Romaji,,0,0,0,,ki mi to").getD 2 "" :=
  C2_ass_rejected_verbatim []
    "[Events]\nFormat: Layer, Start, End, Style, Name, MarginL, MarginR, MarginV, Effect, Text\nDialogue: 0,0:00:05.00,0:00:07.00,OP Romaji,,0,0,0,,ki mi to"
    2 (by decide) (by decide) (by decide)

/-- C5 counterexample: reconstruction normalizes whitespace in **every**
Style column — here the Fontname column (index 1), although the resolved
Encoding column is index 2 — so a Style row differs from its input beyond
the Encoding column. -/
theorem C5_counterexample :
    reconstruct_ass c5src [] = c5out ∧
    styleFormatEncIdx (strTrim ((rustLines c5src).getD 1 "")) = some 2 ∧
    (strSplitComma (strDropChars (strTrim ((rustLines c5src).getD 2 "")) 6)).getD 1 "" =
      "  Arial  " ∧
    (strSplitComma (strDropChars (strTrim ((rustLines c5out).getD 2 "")) 6)).getD 1 "" =
      "Arial" :=
  ⟨by rfl, by rfl, by rfl, by rfl⟩

/-- C5 (amended): line-wise, `reconstruct_ass` emits every line unchanged
except `Dialogue:` rows in `[Events]` and `Style:` rows in `[V4+ Styles]`
once a `Format:` row resolved the Encoding column; such a Style row is
emitted as `styleRewrite` — `Style: ` followed by the comma-join of the
**trimmed** column values, the Encoding value (when within range) forced to
`0` — so whitespace around any column separator is normalized, not only the
Encoding value. -/
theorem C5_style_encoding_normalization :
    (∀ (tm : String → Option String) (st : AssRecState) (ls : List String),
      (assRecLines tm st ls).length = ls.length) ∧
    (∀ (tm : String → Option String) (st : AssRecState) (ls : List String) (i : Nat),
      i < ls.length →
      ((assRecRun tm st (ls.take i)).in_styles = true →
        strStartsWith (strToLower (strTrim (ls.getD i ""))) "style:" = true →
        (assRecRun tm st (ls.take i)).encIdx = none) →
      ¬((assRecRun tm st (ls.take i)).in_events = true ∧
        strStartsWith (strTrim (ls.getD i "")) "Dialogue:" = true) →
      (assRecLines tm st ls).getD i "" = ls.getD i "") ∧
    (∀ (tm : String → Option String) (st : AssRecState) (ls : List String) (i idx : Nat),
      i < ls.length →
      (assRecRun tm st (ls.take i)).in_styles = true →
      strStartsWith (strToLower (strTrim (ls.getD i ""))) "style:" = true →
      (assRecRun tm st (ls.take i)).encIdx = some idx →
      (assRecLines tm st ls).getD i "" = styleRewrite (strTrim (ls.getD i "")) idx) := by
  refine ⟨fun tm st ls => assRecLines_length tm st ls, ?_, ?_⟩
  · intro tm st ls i hi h1 h2
    rw [assRecLines_getD tm ls st i hi]
    exact assRecStep_snd_preserve tm _ _ h1 h2
  · intro tm st ls i idx hi hsty hpre henc
    rw [assRecLines_getD tm ls st i hi]
    exact assRecStep_snd_style tm _ _ idx hsty hpre henc

/-- C5 witness: the amended statement at the concrete Style-row input. -/
theorem C5_witness :
    (assRecLines (buildTransMap []) assRecInit (rustLines c5src)).length =
      (rustLines c5src).length ∧
    (assRecLines (buildTransMap []) assRecInit (rustLines c5src)).getD 0 "" =
      (rustLines c5src).getD 0 "" ∧
    (assRecLines (buildTransMap []) assRecInit (rustLines c5src)).getD 2 "" =
      styleRewrite (strTrim ((rustLines c5src).getD 2 "")) 2 :=
  ⟨C5_style_encoding_normalization.1 (buildTransMap []) assRecInit (rustLines c5src),
   C5_style_encoding_normalization.2.1 (buildTransMap []) assRecInit (rustLines c5src) 0
     (by decide) (by decide) (by decide),
   C5_style_encoding_normalization.2.2 (buildTransMap []) assRecInit (rustLines c5src) 2 2
     (by decide) (by decide) (by decide) (by decide)⟩

/-- The document `translate_subtitles` produces for `c4doc` under
`c4results`: line 3 is overwritten although id 3 was not in batch 0. -/
def c4out : SubtitleData :=
  { format := "srt"
    lines :=
      [{ index := 0, text := "a", original_with_formatting := "a", start := "s0", end_ := "e0",
         style := none, name := none },
       { index := 1, text := "b", original_with_formatting := "b", start := "s1", end_ := "e1",
         style := none, name := none },
       { index := 2, text := "c", original_with_formatting := "c", start := "s2", end_ := "e2",
         style := none, name := none },
       { index := 3, text := "X", original_with_formatting := "d", start := "s3", end_ := "e3",
         style := none, name := none }]
    line_count := 4
    source_path := "p"
    ass_header := none }

/-- C4 counterexample: batch 0 (ids `0,1`) answers with id `3`; the claim
says an id absent from the submitted batch affects no line, yet line 3's
text becomes `X` (and no error is raised). -/
theorem C4_counterexample :
    translate_subtitles c4doc c4results 2 1 =
      ([.progress 1 2 1 4, .progress 2 2 1 4], .ok c4out) ∧
    (∀ tl ∈ ((make_batches c4doc.lines 2).getD 0 (0, [])).2, tl.id ≠ 3) ∧
    (c4doc.lines.getD 3 dfltLine).text = "d" ∧
    (c4out.lines.getD 3 dfltLine).text = "X" :=
  ⟨by rfl, by decide, by rfl, by rfl⟩

/-- C4 (amended): response ids are merged into the run-wide
index-keyed map: an id affects exactly the document line carrying that
index — including a line submitted in a *different* batch — while an id
matching no line index affects nothing; a submitted id missing from every
response leaves its line's original text and raises no error; within a
response, the last occurrence of a duplicated id wins. -/
theorem C4_response_merge :
    (∀ (lines : List DialogLine) (m : TMap) (k : Nat) (v : String),
      (∀ l ∈ lines, l.index ≠ k) → applyMap lines (tmInsert m k v) = applyMap lines m) ∧
    (∀ (lines : List DialogLine) (m : TMap) (i : Nat), i < lines.length →
      tmGet m ((lines.getD i dfltLine).index) = none →
      (applyMap lines m).getD i dfltLine = lines.getD i dfltLine) ∧
    (∀ (ts : List TranslatedLine) (m : TMap) (k : Nat),
      tmGet (ts.foldl (fun m t => tmInsert m t.id t.text) m) k =
        (match ts.reverse.find? (fun t => t.id = k) with
          | some t => some t.text
          | none => tmGet m k)) := by
  refine ⟨?_, ?_, fun ts m k => tmGet_foldl_insert ts m k⟩
  · intro lines m k v h
    unfold applyMap
    apply List.map_congr_left
    intro l hl
    rw [tmGet_insert, if_neg (h l hl)]
  · intro lines m i hi hnone
    rw [applyMap_getD lines m i hi, hnone]

/-- C4 witness: the amended statement at concrete maps and lines. -/
theorem C4_merge_witness :
    applyMap c4doc.lines (tmInsert [] 9 "Z") = applyMap c4doc.lines [] ∧
    (applyMap c4doc.lines [(3, "X")]).getD 1 dfltLine = c4doc.lines.getD 1 dfltLine ∧
    tmGet (List.foldl (fun m t => tmInsert m t.id t.text) []
        [({ id := 0, text := "A" } : TranslatedLine), { id := 0, text := "B" }]) 0 =
      (match (([({ id := 0, text := "A" } : TranslatedLine),
          { id := 0, text := "B" }]).reverse.find? (fun t => t.id = 0)) with
        | some t => some t.text
        | none => tmGet [] 0) :=
  ⟨C4_response_merge.1 c4doc.lines [] 9 "Z" (by decide),
   C4_response_merge.2.1 c4doc.lines [(3, "X")] 1 (by decide) (by decide),
   C4_response_merge.2.2 [{ id := 0, text := "A" }, { id := 0, text := "B" }] [] 0⟩

/-- C6: a successful translate returns a document with the input's
`format`, `ass_header`, `source_path`, length, `line_count` equal to the
list length, and the input's line ordering; each line keeps every field
except `text`, which becomes the run map's entry for its `index` when
present and the original text otherwise. -/
theorem C6_translate_frame (subtitle_data : SubtitleData)
    (results : Nat → List TranslationLine → Except String (List TranslatedLine))
    (batch_size concurrency : Nat) (ev : List TransEvent) (d' : SubtitleData)
    (h : translate_subtitles subtitle_data results batch_size concurrency = (ev, .ok d')) :
    d'.format = subtitle_data.format ∧
    d'.ass_header = subtitle_data.ass_header ∧
    d'.source_path = subtitle_data.source_path ∧
    d'.lines.length = subtitle_data.lines.length ∧
    d'.line_count = d'.lines.length ∧
    (∀ i, i < subtitle_data.lines.length →
      (d'.lines.getD i dfltLine).index = (subtitle_data.lines.getD i dfltLine).index ∧
      (d'.lines.getD i dfltLine).start = (subtitle_data.lines.getD i dfltLine).start ∧
      (d'.lines.getD i dfltLine).end_ = (subtitle_data.lines.getD i dfltLine).end_ ∧
      (d'.lines.getD i dfltLine).style = (subtitle_data.lines.getD i dfltLine).style ∧
      (d'.lines.getD i dfltLine).name = (subtitle_data.lines.getD i dfltLine).name ∧
      (d'.lines.getD i dfltLine).original_with_formatting =
        (subtitle_data.lines.getD i dfltLine).original_with_formatting ∧
      (d'.lines.getD i dfltLine).text =
        (tmGet (translate_run subtitle_data results batch_size
            (Nat.min (Nat.max concurrency 1) 10)).1.tmap
          ((subtitle_data.lines.getD i dfltLine).index)).getD
          ((subtitle_data.lines.getD i dfltLine).text)) := by
  unfold translate_subtitles at h
  dsimp only at h
  by_cases h0 : subtitle_data.lines.length = 0
  · rw [if_pos h0] at h
    simp at h
  · rw [if_neg h0] at h
    cases hp : (translate_run subtitle_data results batch_size
        (Nat.min (Nat.max concurrency 1) 10)).2 with
    | error e =>
      rw [hp] at h
      simp at h
    | ok u =>
      cases u
      rw [hp] at h
      simp only [Prod.mk.injEq, Except.ok.injEq] at h
      obtain ⟨-, hd⟩ := h
      subst hd
      refine ⟨rfl, rfl, rfl, applyMap_length _ _, rfl, ?_⟩
      intro i hi
      have hfields := commit_line_fields (subtitle_data.lines.getD i dfltLine)
        (translate_run subtitle_data results batch_size
          (Nat.min (Nat.max concurrency 1) 10)).1.tmap
      rw [applyMap_getD _ _ i hi]
      exact hfields

/-- C6 witness: the frame conditions evaluated on the concrete
out-of-batch-id run. -/
theorem C6_witness :
    c4out.format = c4doc.format ∧
    c4out.ass_header = c4doc.ass_header ∧
    c4out.source_path = c4doc.source_path ∧
    c4out.lines.length = c4doc.lines.length ∧
    c4out.line_count = c4out.lines.length ∧
    (∀ i, i < c4doc.lines.length →
      (c4out.lines.getD i dfltLine).index = (c4doc.lines.getD i dfltLine).index ∧
      (c4out.lines.getD i dfltLine).start = (c4doc.lines.getD i dfltLine).start ∧
      (c4out.lines.getD i dfltLine).end_ = (c4doc.lines.getD i dfltLine).end_ ∧
      (c4out.lines.getD i dfltLine).style = (c4doc.lines.getD i dfltLine).style ∧
      (c4out.lines.getD i dfltLine).name = (c4doc.lines.getD i dfltLine).name ∧
      (c4out.lines.getD i dfltLine).original_with_formatting =
        (c4doc.lines.getD i dfltLine).original_with_formatting ∧
      (c4out.lines.getD i dfltLine).text =
        (tmGet (translate_run c4doc c4results 2 (Nat.min (Nat.max 1 1) 10)).1.tmap
          ((c4doc.lines.getD i dfltLine).index)).getD
          ((c4doc.lines.getD i dfltLine).text)) :=
  C6_translate_frame c4doc c4results 2 1 [.progress 1 2 1 4, .progress 2 2 1 4] c4out (by rfl)

/-- C7: when the wave decomposition splits as `pre ++ w :: post` with every
batch of `pre` succeeding and some batch of `w` failing, translate returns
an error instead of a document, the events are exactly those of the fully
drained waves up to and including `w` (later waves never run), and every
failing batch of `w` leaves an error notification naming it. -/
theorem C7_batch_failure_aborts (subtitle_data : SubtitleData)
    (results : Nat → List TranslationLine → Except String (List TranslatedLine))
    (batch_size concurrency : Nat) (pre post : List (List Batch)) (w : List Batch)
    (hne : ¬(subtitle_data.lines.length = 0))
    (hw : chunksOf (Nat.min (Nat.max concurrency 1) 10)
        (make_batches subtitle_data.lines batch_size) = pre ++ w :: post)
    (hpre : ∀ wv ∈ pre, ∀ b ∈ wv, ∃ v, results b.1 b.2 = Except.ok v)
    (hfail : ∃ b ∈ w, ∃ e, results b.1 b.2 = Except.error e) :
    ∃ e, translate_subtitles subtitle_data results batch_size concurrency =
        ((w.foldl (run_task results (make_batches subtitle_data.lines batch_size).length
            subtitle_data.lines.length)
          (pre.foldl (fun s wv => wv.foldl (run_task results
              (make_batches subtitle_data.lines batch_size).length
              subtitle_data.lines.length) s) runInit)).events,
          Except.error e) ∧
      ∀ b ∈ w, ∀ msg, results b.1 b.2 = Except.error msg →
        TransEvent.error ("Batch " ++ toString (b.1 + 1) ++ " failed: " ++ msg) ∈
          (translate_subtitles subtitle_data results batch_size concurrency).1 := by
  have hcons := run_waves_append_ok results
    (make_batches subtitle_data.lines batch_size).length subtitle_data.lines.length
    pre (w :: post) runInit hpre
  obtain ⟨e, he⟩ := run_waves_error results
    (make_batches subtitle_data.lines batch_size).length subtitle_data.lines.length
    (pre.foldl (fun s wv => wv.foldl (run_task results
        (make_batches subtitle_data.lines batch_size).length
        subtitle_data.lines.length) s) runInit)
    w post hfail
  have hrun : translate_run subtitle_data results batch_size
      (Nat.min (Nat.max concurrency 1) 10) =
      (w.foldl (run_task results (make_batches subtitle_data.lines batch_size).length
          subtitle_data.lines.length)
        (pre.foldl (fun s wv => wv.foldl (run_task results
            (make_batches subtitle_data.lines batch_size).length
            subtitle_data.lines.length) s) runInit),
        Except.error e) := by
    unfold translate_run
    dsimp only
    rw [hw, hcons, he]
  have htrans : translate_subtitles subtitle_data results batch_size concurrency =
      ((w.foldl (run_task results (make_batches subtitle_data.lines batch_size).length
          subtitle_data.lines.length)
        (pre.foldl (fun s wv => wv.foldl (run_task results
            (make_batches subtitle_data.lines batch_size).length
            subtitle_data.lines.length) s) runInit)).events,
        Except.error e) := by
    unfold translate_subtitles
    dsimp only
    rw [if_neg hne, hrun]
  refine ⟨e, htrans, ?_⟩
  intro b hb msg hmsg
  rw [htrans]
  exact run_wave_error_event results
    (make_batches subtitle_data.lines batch_size).length subtitle_data.lines.length
    w _ b msg hb hmsg

/-- C7 witness: four one-line batches, concurrency 2, batch ordinal 1
fails: the run aborts after draining the first wave, batch 0's progress is
kept, and the `Batch 2 failed` notification is present. -/
theorem C7_witness :
    ∃ e, translate_subtitles c4doc c7results 1 2 =
        (([(0, [({ id := 0, text := "a" } : TranslationLine)]),
            (1, [({ id := 1, text := "b" } : TranslationLine)])].foldl
            (run_task c7results (make_batches c4doc.lines 1).length c4doc.lines.length)
          (([] : List (List Batch)).foldl (fun s wv => wv.foldl (run_task c7results
              (make_batches c4doc.lines 1).length c4doc.lines.length) s) runInit)).events,
          Except.error e) ∧
      ∀ b ∈ [(0, [({ id := 0, text := "a" } : TranslationLine)]),
          (1, [({ id := 1, text := "b" } : TranslationLine)])],
        ∀ msg, c7results b.1 b.2 = Except.error msg →
        TransEvent.error ("Batch " ++ toString (b.1 + 1) ++ " failed: " ++ msg) ∈
          (translate_subtitles c4doc c7results 1 2).1 :=
  C7_batch_failure_aborts c4doc c7results 1 2 []
    [[(2, [{ id := 2, text := "c" }]), (3, [{ id := 3, text := "d" }])]]
    [(0, [{ id := 0, text := "a" }]), (1, [{ id := 1, text := "b" }])]
    (by decide) (by decide) (by simp)
    ⟨(1, [{ id := 1, text := "b" }]), by decide, "boom", by rfl⟩

end Animesubs
